import Mathlib

/-!
Verification of the expression-template matrix library in `src/matrix.hpp`.

The element type is instantiated at `int`, modelled by `Int` (no arithmetic
in the repository's use of `int` can overflow 32 bits in the instances we
evaluate, and the claims are about the algebra, not about wrap-around).
Assertion failures and out-of-bounds `std::vector` accesses are modelled by
`Option`: a computation that the C++ program cannot complete yields `none`.
A separate model over `Rat` (exact `double` arithmetic on dyadic values)
is used where a claim quantifies over every element type.
-/

/-- Model of dense storage `matrix<T>` for `T = int` (src/matrix.hpp:43-116):
the inherited shape fields `num_rows_`, `num_cols_` and the row-major
element buffer `matrix_`. -/
structure matrix where
  num_rows : Nat
  num_cols : Nat
  data : List Int
  deriving DecidableEq, Repr

/-- Model of `matrix::at(row, col) const` (src/matrix.hpp:84-88): the code
asserts `col <= num_cols_` and `row <= num_rows_` (note `<=`, not `<`) and
then reads `matrix_[row * num_cols_ + col]`; a failed assert, or a read
past the end of the vector, yields no value. -/
def matrix.at (m : matrix) (row col : Nat) : Option Int :=
  if col ≤ m.num_cols ∧ row ≤ m.num_rows then
    m.data[row * m.num_cols + col]?
  else
    none

/-- Total row-major accessor used to state specifications; defaults to `0`
outside the buffer. -/
def matrix.entry (m : matrix) (row col : Nat) : Int :=
  (m.data).getD (row * m.num_cols + col) 0

/-- Model of `matrix::max()` (src/matrix.hpp:96-102): seeds the running
maximum with `matrix_[0]` and folds `max_val > cur_val ? max_val : cur_val`
over the whole buffer; on an empty store the seeding read `matrix_[0]`
cannot produce a value. -/
def matrix.max (m : matrix) : Option Int :=
  match m.data with
  | [] => none
  | x :: xs =>
      some ((x :: xs).foldl (fun max_val cur_val =>
        if max_val > cur_val then max_val else cur_val) x)

/-- Model of `matrix(size_t rows, size_t columns, std::vector<T> data)`
(src/matrix.hpp:57-60): stores the dimensions and the buffer exactly as
given, with no validation of any kind. -/
def matrix.ofDims (rows columns : Nat) (data : List Int) : matrix :=
  ⟨rows, columns, data⟩

/-- Model of `matrix<T>() = default` (src/matrix.hpp:55): the inherited
`size_t` shape members (src/matrix.hpp:11-12) have no initializers, so a
default-initialized instance carries indeterminate shape values; the
indeterminate contents are surfaced as explicit parameters. The
`std::vector` member is properly default-constructed, hence empty. -/
def matrix.defaultCtor (indet_rows indet_cols : Nat) : matrix :=
  ⟨indet_rows, indet_cols, []⟩

/-- Expression trees over dense integer matrices: the composite nodes
`matrix_sum` (src/matrix.hpp:120-137), `matrix_sub` (src/matrix.hpp:152-169),
the matrix-times-matrix `matrix_prod` (src/matrix.hpp:190-212), and the two
scalar specializations of `matrix_prod` (src/matrix.hpp:214-254). -/
inductive mexpr : Type where
  | dense : matrix → mexpr
  | sum : mexpr → mexpr → mexpr
  | sub : mexpr → mexpr → mexpr
  | prod : mexpr → mexpr → mexpr
  | scalarL : Int → mexpr → mexpr
  | scalarR : mexpr → Int → mexpr
  deriving DecidableEq, Repr

/-- The `num_rows_` value each node stores at construction time:
`matrix_sum`/`matrix_sub` copy `lhs_.num_rows()`, the matrix product stores
`lhs_.num_rows()`, the scalar specializations copy the shaped operand. -/
def mexpr.num_rows : mexpr → Nat
  | .dense m => m.num_rows
  | .sum l _ => l.num_rows
  | .sub l _ => l.num_rows
  | .prod l _ => l.num_rows
  | .scalarL _ e => e.num_rows
  | .scalarR e _ => e.num_rows

/-- The `num_cols_` value each node stores at construction time:
`matrix_sum`/`matrix_sub` copy `lhs_.num_cols()`, the matrix product stores
`rhs_.num_cols()`, the scalar specializations copy the shaped operand. -/
def mexpr.num_cols : mexpr → Nat
  | .dense m => m.num_cols
  | .sum l _ => l.num_cols
  | .sub l _ => l.num_cols
  | .prod _ r => r.num_cols
  | .scalarL _ e => e.num_cols
  | .scalarR e _ => e.num_cols

/-- Model of the `matrix_sum` constructor (src/matrix.hpp:127-132): asserts
that the operand shapes coincide, then stores the shared shape. A failed
assert aborts before any coordinate is evaluated. -/
def matrix_sum.mk (lhs rhs : mexpr) : Option mexpr :=
  if lhs.num_rows = rhs.num_rows ∧ lhs.num_cols = rhs.num_cols then
    some (.sum lhs rhs)
  else
    none

/-- Model of the `matrix_sub` constructor (src/matrix.hpp:159-164): same
shape assertion as `matrix_sum`. -/
def matrix_sub.mk (lhs rhs : mexpr) : Option mexpr :=
  if lhs.num_rows = rhs.num_rows ∧ lhs.num_cols = rhs.num_cols then
    some (.sub lhs rhs)
  else
    none

/-- Model of the matrix-times-matrix `matrix_prod` constructor
(src/matrix.hpp:198-203): asserts `lhs_.num_cols() == rhs_.num_rows()`,
captures the shared dimension and stores shape
`(lhs.num_rows(), rhs.num_cols())`. -/
def matrix_prod.mk (lhs rhs : mexpr) : Option mexpr :=
  if lhs.num_cols = rhs.num_rows then
    some (.prod lhs rhs)
  else
    none

/-- Model of the scalar-on-the-left `matrix_prod` specialization constructor
(src/matrix.hpp:225-228): no shape check, shape copied from `rhs_`. -/
def matrix_prod.mkScalarL (s : Int) (rhs : mexpr) : mexpr :=
  .scalarL s rhs

/-- Model of the scalar-on-the-right `matrix_prod` specialization
constructor (src/matrix.hpp:246-249): no shape check, shape copied from
`lhs_`. -/
def matrix_prod.mkScalarR (lhs : mexpr) (s : Int) : mexpr :=
  .scalarR lhs s

/-- The loop of `matrix_prod::at` (src/matrix.hpp:205-211): iterations
`i = 0, ..., n-1` of `dot_product += lhs_.at(row, i) * rhs_.at(i, col)`,
starting from `dot_product = 0`; `f i` and `g i` are the two operand
lookups of iteration `i`. -/
def dotStep (f g : Nat → Option Int) : Nat → Option Int
  | 0 => some 0
  | n + 1 => do
      let acc ← dotStep f g n
      let a ← f n
      let b ← g n
      pure (acc + a * b)

/-- Model of coordinate evaluation `at(row, col)` for every node kind:
dense lookup (src/matrix.hpp:84-88), `lhs + rhs` (src/matrix.hpp:134-136),
`lhs - rhs` (src/matrix.hpp:166-168), the dot-product loop over the shared
dimension `lhs_.num_cols()` (src/matrix.hpp:205-211), and the two scalar
forms `lhs_ * rhs_.at(row,col)` (src/matrix.hpp:230-232) and
`rhs_ * lhs_.at(row,col)` (src/matrix.hpp:251-253). -/
def mexpr.at : mexpr → Nat → Nat → Option Int
  | .dense m, row, col => m.at row col
  | .sum l r, row, col => do
      let a ← l.at row col
      let b ← r.at row col
      pure (a + b)
  | .sub l r, row, col => do
      let a ← l.at row col
      let b ← r.at row col
      pure (a - b)
  | .prod l r, row, col =>
      dotStep (fun i => l.at row i) (fun i => r.at i col) l.num_cols
  | .scalarL s e, row, col => do
      let v ← e.at row col
      pure (s * v)
  | .scalarR e s, row, col => do
      let v ← e.at row col
      pure (s * v)

/-- Row-major list of all coordinate evaluations `expr.at(i, j)` performed
by the materializing constructor's double loop (src/matrix.hpp:112-114). -/
def evalGrid (e : mexpr) : List (Option Int) :=
  (List.range e.num_rows).flatMap (fun i =>
    (List.range e.num_cols).map (fun j => e.at i j))

/-- Model of the materializing constructor `matrix(matrix_expr<E> const&)`
(src/matrix.hpp:106-115): allocates a `num_rows * num_cols` buffer and
writes `expr.at(i, j)` at linear index `i * num_cols + j` in row-major
order; construction aborts when any coordinate evaluation fails. For
`T = int` and integer-valued expressions the `static_cast<T>` is the
identity. -/
def materialize (e : mexpr) : Option matrix :=
  if (evalGrid e).all Option.isSome then
    some ⟨e.num_rows, e.num_cols, (evalGrid e).map (fun o => o.getD 0)⟩
  else
    none

/-- Row-major flattening of a value table, used to state what
materialization produces. -/
def grid (rows cols : Nat) (f : Nat → Nat → Int) : List Int :=
  (List.range rows).flatMap (fun i => (List.range cols).map (fun j => f i j))

/-- Model of `operator+` (src/matrix.hpp:140-143): constructs a
`matrix_sum` node from its two operands. -/
def opAdd (lhs rhs : mexpr) : Option mexpr :=
  matrix_sum.mk lhs rhs

/-- Model of `operator+=` (src/matrix.hpp:145-148): its body is identical
to `operator+` — it constructs and returns a new `matrix_sum` node. -/
def opAddAssign (lhs rhs : mexpr) : Option mexpr :=
  matrix_sum.mk lhs rhs

/-- Model of `operator-` (src/matrix.hpp:172-175). -/
def opSub (lhs rhs : mexpr) : Option mexpr :=
  matrix_sub.mk lhs rhs

/-- Model of `operator-=` (src/matrix.hpp:177-180): its body is identical
to `operator-`. -/
def opSubAssign (lhs rhs : mexpr) : Option mexpr :=
  matrix_sub.mk lhs rhs

/-- Model of `operator*` (src/matrix.hpp:256-259) when neither operand is a
scalar. -/
def opMul (lhs rhs : mexpr) : Option mexpr :=
  matrix_prod.mk lhs rhs

/-- Model of `operator*=` (src/matrix.hpp:261-264) when neither operand is
a scalar: its body is identical to `operator*`. -/
def opMulAssign (lhs rhs : mexpr) : Option mexpr :=
  matrix_prod.mk lhs rhs

/-- Model of `operator*` when the left operand is a scalar: dispatches to
the scalar-on-the-left specialization. -/
def opMulScalarL (s : Int) (rhs : mexpr) : mexpr :=
  matrix_prod.mkScalarL s rhs

/-- Model of `operator*=` when the left operand is a scalar. -/
def opMulAssignScalarL (s : Int) (rhs : mexpr) : mexpr :=
  matrix_prod.mkScalarL s rhs

/-- Model of `operator*` when the right operand is a scalar: dispatches to
the scalar-on-the-right specialization. -/
def opMulScalarR (lhs : mexpr) (s : Int) : mexpr :=
  matrix_prod.mkScalarR lhs s

/-- Model of `operator*=` when the right operand is a scalar. -/
def opMulAssignScalarR (lhs : mexpr) (s : Int) : mexpr :=
  matrix_prod.mkScalarR lhs s

/-- Model of `operator<<` (src/matrix.hpp:29-40) for integer-valued
expressions: returns the stream untouched when `num_rows() == 0`;
otherwise, in row-major order, prints each value followed by one space and
ends each row with one newline. A failed coordinate evaluation yields no
string. -/
def render (e : mexpr) : Option String :=
  if e.num_rows = 0 then
    some ""
  else if (evalGrid e).all Option.isSome then
    some (String.join ((List.range e.num_rows).map (fun i =>
      String.join ((List.range e.num_cols).map (fun j =>
        toString ((e.at i j).getD 0) ++ " ")) ++ "\n")))
  else
    none

/-! ### Basic facts about the embedding -/

/-- The dense-storage buffer invariant: the buffer holds exactly
`rows * cols` elements. -/
def matrix.wf (m : matrix) : Prop :=
  m.data.length = m.num_rows * m.num_cols

instance (m : matrix) : Decidable m.wf := by
  unfold matrix.wf
  infer_instance

theorem row_major_lt {rows cols i j : Nat} (hi : i < rows) (hj : j < cols) :
    i * cols + j < rows * cols :=
  calc i * cols + j < i * cols + cols := by omega
    _ = (i + 1) * cols := by ring
    _ ≤ rows * cols := Nat.mul_le_mul_right cols (by omega)

/-- In-range lookup on a well-formed store succeeds and returns the
row-major buffer element. -/
theorem matrix.at_eq_entry (m : matrix) (row col : Nat) (hm : m.wf)
    (hrow : row < m.num_rows) (hcol : col < m.num_cols) :
    m.at row col = some (m.entry row col) := by
  have hidx : row * m.num_cols + col < m.data.length := by
    rw [hm]; exact row_major_lt hrow hcol
  simp only [matrix.at, matrix.entry]
  rw [if_pos ⟨Nat.le_of_lt hcol, Nat.le_of_lt hrow⟩,
    List.getD_eq_getElem?_getD, List.getElem?_eq_getElem hidx]
  rfl

theorem grid_length (rows cols : Nat) (f : Nat → Nat → Int) :
    (grid rows cols f).length = rows * cols := by
  induction rows with
  | zero => simp [grid]
  | succ n ih =>
      simp [grid, List.range_succ] at ih ⊢
      simp [ih, Nat.succ_mul]

theorem grid_getD (rows cols : Nat) (f : Nat → Nat → Int) (i j : Nat)
    (hi : i < rows) (hj : j < cols) :
    (grid rows cols f).getD (i * cols + j) 0 = f i j := by
  induction rows with
  | zero => exact absurd hi (Nat.not_lt_zero i)
  | succ n ih =>
      have hsplit : grid (n + 1) cols f
          = grid n cols f ++ (List.range cols).map (f n) := by
        simp [grid, List.range_succ]
      rw [hsplit]
      rcases Nat.lt_or_ge i n with h | h
      · rw [List.getD_append]
        · exact ih h
        · rw [grid_length]; exact row_major_lt h hj
      · have hin : i = n := by omega
        subst hin
        rw [List.getD_append_right _ _ _ _ (by rw [grid_length]; omega)]
        rw [grid_length]
        have hj' : i * cols + j - i * cols = j := by omega
        rw [hj', List.getD_eq_getElem?_getD, List.getElem?_map,
          List.getElem?_range hj]
        rfl

theorem evalGrid_length (e : mexpr) :
    (evalGrid e).length = e.num_rows * e.num_cols := by
  unfold evalGrid
  induction e.num_rows with
  | zero => simp
  | succ n ih =>
      simp [List.range_succ] at ih ⊢
      simp [ih, Nat.succ_mul]

/-- When every coordinate of `e` evaluates to `f i j`, the materializing
constructor succeeds and fills the buffer with the row-major table of `f`. -/
theorem materialize_eq (e : mexpr) (f : Nat → Nat → Int)
    (h : ∀ i, i < e.num_rows → ∀ j, j < e.num_cols → e.at i j = some (f i j)) :
    materialize e = some ⟨e.num_rows, e.num_cols, grid e.num_rows e.num_cols f⟩ := by
  have hgrid : evalGrid e = (List.range e.num_rows).flatMap
      (fun i => (List.range e.num_cols).map (fun j => some (f i j))) := by
    unfold evalGrid
    refine List.flatMap_congr (fun i hi => ?_)
    refine List.map_congr_left (fun j hj => ?_)
    exact h i (List.mem_range.mp hi) j (List.mem_range.mp hj)
  have hall : (evalGrid e).all Option.isSome = true := by
    rw [hgrid, List.all_eq_true]
    intro x hx
    rcases List.mem_flatMap.mp hx with ⟨i, _, hx2⟩
    rcases List.mem_map.mp hx2 with ⟨j, _, rfl⟩
    rfl
  rw [materialize, if_pos hall, hgrid]
  have hdata : ((List.range e.num_rows).flatMap
      (fun i => (List.range e.num_cols).map (fun j => some (f i j)))).map
        (fun o => o.getD 0)
      = grid e.num_rows e.num_cols f := by
    rw [List.map_flatMap, grid]
    refine List.flatMap_congr (fun i _ => ?_)
    rw [List.map_map]
    rfl
  rw [hdata]

/-- Entry-level corollary of `materialize_eq`. -/
theorem materialize_entry (e : mexpr) (f : Nat → Nat → Int)
    (h : ∀ i, i < e.num_rows → ∀ j, j < e.num_cols → e.at i j = some (f i j))
    (i j : Nat) (hi : i < e.num_rows) (hj : j < e.num_cols) :
    ∃ C, materialize e = some C ∧ C.num_rows = e.num_rows ∧
      C.num_cols = e.num_cols ∧ C.wf ∧ C.entry i j = f i j := by
  refine ⟨_, materialize_eq e f h, rfl, rfl, ?_, ?_⟩
  · show (grid e.num_rows e.num_cols f).length = _
    rw [grid_length]
  · show (grid e.num_rows e.num_cols f).getD (i * e.num_cols + j) 0 = f i j
    exact grid_getD e.num_rows e.num_cols f i j hi hj

/-- Every successfully materialized store satisfies the buffer invariant. -/
theorem materialize_wf (e : mexpr) (C : matrix)
    (h : materialize e = some C) : C.wf := by
  unfold materialize at h
  split at h
  · rw [← Option.some.inj h]
    show ((evalGrid e).map _).length = _
    rw [List.length_map, evalGrid_length]
  · exact absurd h (by simp)

theorem sum_at_eq {l r : mexpr} {i j : Nat} {a b : Int}
    (hl : l.at i j = some a) (hr : r.at i j = some b) :
    (mexpr.sum l r).at i j = some (a + b) := by
  simp [mexpr.at, hl, hr]

theorem sub_at_eq {l r : mexpr} {i j : Nat} {a b : Int}
    (hl : l.at i j = some a) (hr : r.at i j = some b) :
    (mexpr.sub l r).at i j = some (a - b) := by
  simp [mexpr.at, hl, hr]

theorem scalarL_at_eq {e : mexpr} {s : Int} {i j : Nat} {v : Int}
    (he : e.at i j = some v) :
    (mexpr.scalarL s e).at i j = some (s * v) := by
  simp [mexpr.at, he]

theorem scalarR_at_eq {e : mexpr} {s : Int} {i j : Nat} {v : Int}
    (he : e.at i j = some v) :
    (mexpr.scalarR e s).at i j = some (s * v) := by
  simp [mexpr.at, he]

theorem dotStep_eq_sum (f g : Nat → Option Int) (a b : Nat → Int) (n : Nat)
    (hf : ∀ t, t < n → f t = some (a t)) (hg : ∀ t, t < n → g t = some (b t)) :
    dotStep f g n = some (∑ t ∈ Finset.range n, a t * b t) := by
  induction n with
  | zero => simp [dotStep]
  | succ n ih =>
      rw [dotStep, ih (fun t ht => hf t (by omega)) (fun t ht => hg t (by omega)),
        hf n (by omega), hg n (by omega)]
      simp [Finset.sum_range_succ]

/-- Coordinate evaluation of a product of two dense matrices is the naive
dot product over the shared dimension. -/
theorem prod_at_dense (A B : matrix) (hA : A.wf) (hB : B.wf)
    (hdim : A.num_cols = B.num_rows) (i j : Nat)
    (hi : i < A.num_rows) (hj : j < B.num_cols) :
    (mexpr.prod (.dense A) (.dense B)).at i j
      = some (∑ t ∈ Finset.range A.num_cols, A.entry i t * B.entry t j) := by
  show dotStep _ _ (mexpr.dense A).num_cols = _
  show dotStep _ _ A.num_cols = _
  refine dotStep_eq_sum _ _ (fun t => A.entry i t) (fun t => B.entry t j)
    A.num_cols (fun t ht => ?_) (fun t ht => ?_)
  · exact A.at_eq_entry i t hA hi ht
  · exact B.at_eq_entry t j hB (hdim ▸ ht) hj

/-! ### The running maximum of `matrix::max` -/

/-- The ternary step `max_val > cur_val ? max_val : cur_val` of
`matrix::max` (src/matrix.hpp:99). -/
theorem max_foldl_mem :
    ∀ (xs : List Int) (a : Int),
      xs.foldl (fun max_val cur_val =>
        if max_val > cur_val then max_val else cur_val) a = a ∨
      xs.foldl (fun max_val cur_val =>
        if max_val > cur_val then max_val else cur_val) a ∈ xs := by
  intro xs
  induction xs with
  | nil => exact fun a => Or.inl rfl
  | cons y ys ih =>
      intro a
      rcases ih (if a > y then a else y) with h | h
      · rw [List.foldl_cons, h]
        by_cases hy : a > y
        · rw [if_pos hy]; exact Or.inl rfl
        · rw [if_neg hy]; exact Or.inr (List.mem_cons_self y ys)
      · exact Or.inr (List.mem_cons_of_mem y h)

theorem max_foldl_bounds :
    ∀ (xs : List Int) (a : Int),
      a ≤ xs.foldl (fun max_val cur_val =>
        if max_val > cur_val then max_val else cur_val) a ∧
      ∀ x ∈ xs, x ≤ xs.foldl (fun max_val cur_val =>
        if max_val > cur_val then max_val else cur_val) a := by
  intro xs
  induction xs with
  | nil => exact fun a => ⟨le_refl a, by simp⟩
  | cons y ys ih =>
      intro a
      obtain ⟨h1, h2⟩ := ih (if a > y then a else y)
      have hstep : a ≤ (if a > y then a else y) ∧ y ≤ (if a > y then a else y) := by
        by_cases hy : a > y
        · rw [if_pos hy]; exact ⟨le_refl a, le_of_lt hy⟩
        · rw [if_neg hy]; exact ⟨le_of_not_lt hy, le_refl y⟩
      refine ⟨le_trans hstep.1 h1, fun x hx => ?_⟩
      rcases List.mem_cons.mp hx with rfl | hx
      · exact le_trans hstep.2 h1
      · exact h2 x hx

/-! ### Exact model of `matrix<double>` for the product counterexample -/

/-- Model of dense storage `matrix<T>` for `T = double`: the values in the
instance evaluated below are small dyadic rationals, on which every IEEE
`double` operation performed by the code is exact, so `double` is modelled
by `Rat`. -/
structure matrixD where
  num_rows : Nat
  num_cols : Nat
  data : List Rat
  deriving DecidableEq, Repr

/-- Model of `matrix<double>::at(row, col) const` (src/matrix.hpp:84-88). -/
def matrixD.at (m : matrixD) (row col : Nat) : Option Rat :=
  if col ≤ m.num_cols ∧ row ≤ m.num_rows then
    m.data[row * m.num_cols + col]?
  else
    none

/-- Total row-major accessor for `matrixD`, for stating specifications. -/
def matrixD.entry (m : matrixD) (row col : Nat) : Rat :=
  (m.data).getD (row * m.num_cols + col) 0

/-- Conversion of a `double` value to `int`, as performed by the compound
assignment `dot_product += ...` when `dot_product` has type `int`
(`auto dot_product = 0`, src/matrix.hpp:206): the exact sum is truncated
toward zero. -/
def truncToInt (q : Rat) : Int :=
  Int.sign q.num * (q.num.natAbs / q.den : Nat)

/-- Model of the loop of `matrix_prod::at` (src/matrix.hpp:205-211) for two
`double` operands: `auto dot_product = 0` declares an `int` accumulator,
and every iteration `dot_product += lhs_.at(row,i) * rhs_.at(i,col)` forms
the sum in `double` and truncates it back to `int`. -/
def prodAtD (lhs rhs : matrixD) (row col : Nat) : Nat → Option Int
  | 0 => some 0
  | n + 1 => do
      let acc ← prodAtD lhs rhs row col n
      let a ← lhs.at row n
      let b ← rhs.at n col
      pure (truncToInt ((acc : Rat) + a * b))

/-- Coordinate evaluation of `A*B` for `double` matrices: `matrix_prod::at`
runs its loop over the shared dimension `lhs_.num_cols()` and returns the
`int` accumulator. -/
def prodExprAtD (A B : matrixD) (row col : Nat) : Option Int :=
  prodAtD A B row col A.num_cols

/-- Row-major list of the coordinate evaluations performed when
materializing `A*B` for `double` matrices; the product node has shape
`(A.num_rows, B.num_cols)`. -/
def evalGridProdD (A B : matrixD) : List (Option Int) :=
  (List.range A.num_rows).flatMap (fun i =>
    (List.range B.num_cols).map (fun j => prodExprAtD A B i j))

/-- Model of materializing `A*B` into a `matrix<double>`
(src/matrix.hpp:106-115): each computed `int` is cast back to `double` by
`static_cast<T>`, which is exact. -/
def materializeProdD (A B : matrixD) : Option matrixD :=
  if (evalGridProdD A B).all Option.isSome then
    some ⟨A.num_rows, B.num_cols,
      (evalGridProdD A B).map (fun o => ((o.getD 0 : Int) : Rat))⟩
  else
    none

/-- The 1×1 `double` matrix holding `0.5`. -/
def dHalf : matrixD := ⟨1, 1, [(1 : Rat) / 2]⟩

/-- Truncation toward zero maps the interval `[0, 1)` to `0`. -/
theorem truncToInt_eq_zero (q : Rat) (h0 : 0 ≤ q) (h1 : q < 1) :
    truncToInt q = 0 := by
  have hn : 0 ≤ q.num := Rat.num_nonneg.mpr h0
  have hden : (0 : Rat) < (q.den : Rat) := by exact_mod_cast q.den_pos
  have h1' := h1
  rw [← Rat.num_div_den q, div_lt_one hden] at h1'
  have hlt : q.num < (q.den : Int) := by exact_mod_cast h1'
  have hdiv : q.num.natAbs / q.den = 0 := Nat.div_eq_of_lt (by omega)
  rw [truncToInt, hdiv]
  simp

/-! ### Claims -/

/-- C1 (amended to integer element types): for dense integer matrices
A (m×k) and B (k×n), the product node is constructible exactly because
`A.num_cols = B.num_rows`, and materializing `A*B` yields at every
coordinate (i,j) the dot product over the shared dimension, the sum over
t in [0,k) of `A(i,t) * B(t,j)`, with the accumulator seeded by the
literal `0` — which for integer element types is the additive identity. -/
theorem C1_int_prod_correct (A B : matrix) (hA : A.wf) (hB : B.wf)
    (hdim : A.num_cols = B.num_rows) (i j : Nat)
    (hi : i < A.num_rows) (hj : j < B.num_cols) :
    matrix_prod.mk (.dense A) (.dense B) = some (.prod (.dense A) (.dense B)) ∧
    ∃ C, materialize (.prod (.dense A) (.dense B)) = some C ∧
      C.num_rows = A.num_rows ∧ C.num_cols = B.num_cols ∧
      C.entry i j = ∑ t ∈ Finset.range A.num_cols, A.entry i t * B.entry t j := by
  constructor
  · rw [matrix_prod.mk, if_pos]
    exact hdim
  · obtain ⟨C, h1, h2, h3, _, h5⟩ :=
      materialize_entry (.prod (.dense A) (.dense B))
        (fun i j => ∑ t ∈ Finset.range A.num_cols, A.entry i t * B.entry t j)
        (fun i hi j hj => prod_at_dense A B hA hB hdim i j hi hj) i j hi hj
    exact ⟨C, h1, h2, h3, h5⟩

/-- C1 witness: the 2×2 instance from the specification's concrete
scenario, `{{1,2},{3,4}} * {{5,6},{7,8}}`, materializes to 22 at (0,1). -/
theorem C1_int_prod_correct_witness :
    ∃ C, materialize (.prod (.dense ⟨2, 2, [1, 2, 3, 4]⟩)
        (.dense ⟨2, 2, [5, 6, 7, 8]⟩)) = some C ∧ C.entry 0 1 = 22 := by
  obtain ⟨-, C, h1, -, -, h5⟩ :=
    C1_int_prod_correct ⟨2, 2, [1, 2, 3, 4]⟩ ⟨2, 2, [5, 6, 7, 8]⟩
      (by decide) (by decide) rfl 0 1 (by decide) (by decide)
  refine ⟨C, h1, ?_⟩
  rw [h5]
  decide

/-- C1 counterexample: over element type `double` the claim fails, because
`auto dot_product = 0` declares an `int` accumulator. For the 1×1 `double`
matrices A = B = [[0.5]] (every `double` operation involved is exact), the
shared-dimension check passes, yet `A*B` materializes to [[0.0]] while the
claimed dot product is 0.25. -/
theorem C1_prod_counterexample :
    dHalf.num_cols = dHalf.num_rows ∧
    materializeProdD dHalf dHalf = some ⟨1, 1, [0]⟩ ∧
    (∑ t ∈ Finset.range dHalf.num_cols, dHalf.entry 0 t * dHalf.entry t 0)
      = 1 / 4 ∧
    ((1 : Rat) / 4) ≠ 0 := by
  have hat : dHalf.at 0 0 = some ((1 : Rat) / 2) := by
    rw [dHalf, matrixD.at]
    norm_num
  have hentry : dHalf.entry 0 0 = (1 : Rat) / 2 := by
    rw [dHalf, matrixD.entry]
    norm_num
  have hval : prodExprAtD dHalf dHalf 0 0 = some 0 := by
    rw [prodExprAtD]
    show prodAtD dHalf dHalf 0 0 1 = some 0
    rw [prodAtD, prodAtD, hat]
    show some (truncToInt (((0 : Int) : Rat) + (1 : Rat) / 2 * ((1 : Rat) / 2)))
      = some 0
    rw [truncToInt_eq_zero _ (by norm_num) (by norm_num)]
  refine ⟨rfl, ?_, ?_, by norm_num⟩
  · rw [materializeProdD]
    have hgrid : evalGridProdD dHalf dHalf = [some 0] := by
      rw [evalGridProdD]
      show [prodExprAtD dHalf dHalf 0 0] = [some 0]
      rw [hval]
    rw [hgrid]
    norm_num
    exact ⟨rfl, rfl⟩
  · show (∑ t ∈ Finset.range 1, dHalf.entry 0 t * dHalf.entry t 0) = 1 / 4
    rw [Finset.sum_range_one, hentry]
    norm_num

/-- C2: for dense integer matrices A and B of equal shape, the sum and
difference nodes are constructed by `operator+` / `operator-`, and
materializing them yields, at every coordinate (i,j), `A(i,j) + B(i,j)`
and `A(i,j) - B(i,j)` respectively. -/
theorem C2_sum_sub_correct (A B : matrix) (hA : A.wf) (hB : B.wf)
    (hr : A.num_rows = B.num_rows) (hc : A.num_cols = B.num_cols)
    (i j : Nat) (hi : i < A.num_rows) (hj : j < A.num_cols) :
    opAdd (.dense A) (.dense B) = some (.sum (.dense A) (.dense B)) ∧
    opSub (.dense A) (.dense B) = some (.sub (.dense A) (.dense B)) ∧
    (∃ C, materialize (.sum (.dense A) (.dense B)) = some C ∧
      C.num_rows = A.num_rows ∧ C.num_cols = A.num_cols ∧
      C.entry i j = A.entry i j + B.entry i j) ∧
    (∃ D, materialize (.sub (.dense A) (.dense B)) = some D ∧
      D.num_rows = A.num_rows ∧ D.num_cols = A.num_cols ∧
      D.entry i j = A.entry i j - B.entry i j) := by
  have hAat : ∀ i', i' < A.num_rows → ∀ j', j' < A.num_cols →
      (mexpr.dense A).at i' j' = some (A.entry i' j') :=
    fun i' hi' j' hj' => A.at_eq_entry i' j' hA hi' hj'
  have hBat : ∀ i', i' < A.num_rows → ∀ j', j' < A.num_cols →
      (mexpr.dense B).at i' j' = some (B.entry i' j') :=
    fun i' hi' j' hj' => B.at_eq_entry i' j' hB (hr ▸ hi') (hc ▸ hj')
  refine ⟨?_, ?_, ?_, ?_⟩
  · rw [opAdd, matrix_sum.mk, if_pos]
    exact ⟨hr, hc⟩
  · rw [opSub, matrix_sub.mk, if_pos]
    exact ⟨hr, hc⟩
  · obtain ⟨C, h1, h2, h3, _, h5⟩ :=
      materialize_entry (.sum (.dense A) (.dense B))
        (fun i j => A.entry i j + B.entry i j)
        (fun i' hi' j' hj' => sum_at_eq (hAat i' hi' j' hj') (hBat i' hi' j' hj'))
        i j hi hj
    exact ⟨C, h1, h2, h3, h5⟩
  · obtain ⟨D, h1, h2, h3, _, h5⟩ :=
      materialize_entry (.sub (.dense A) (.dense B))
        (fun i j => A.entry i j - B.entry i j)
        (fun i' hi' j' hj' => sub_at_eq (hAat i' hi' j' hj') (hBat i' hi' j' hj'))
        i j hi hj
    exact ⟨D, h1, h2, h3, h5⟩

/-- C2 witness: the specification's 2×2 scenario, A = {{1,2},{3,4}},
B = {{5,6},{7,8}}: A+B holds 12 at (1,1) and A-B holds -4 at (1,1). -/
theorem C2_sum_sub_correct_witness :
    (∃ C, materialize (.sum (.dense ⟨2, 2, [1, 2, 3, 4]⟩)
        (.dense ⟨2, 2, [5, 6, 7, 8]⟩)) = some C ∧ C.entry 1 1 = 12) ∧
    (∃ D, materialize (.sub (.dense ⟨2, 2, [1, 2, 3, 4]⟩)
        (.dense ⟨2, 2, [5, 6, 7, 8]⟩)) = some D ∧ D.entry 1 1 = -4) := by
  obtain ⟨-, -, ⟨C, hC1, -, -, hC5⟩, D, hD1, -, -, hD5⟩ :=
    C2_sum_sub_correct ⟨2, 2, [1, 2, 3, 4]⟩ ⟨2, 2, [5, 6, 7, 8]⟩
      (by decide) (by decide) rfl rfl 1 1 (by decide) (by decide)
  exact ⟨⟨C, hC1, by rw [hC5]; decide⟩, ⟨D, hD1, by rw [hD5]; decide⟩⟩

/-- C3: the Sum and Difference constructors fail (failed assert, before any
coordinate is evaluated — the constructor model never consults `at`)
exactly when the operand shapes differ, and the Matrix×Matrix product
constructor fails exactly when `lhs.num_cols ≠ rhs.num_rows`; on success
the stored shape is the shared shape, respectively
`(lhs.num_rows, rhs.num_cols)`. -/
theorem C3_construction_checks (l r : mexpr) :
    (matrix_sum.mk l r = none ↔
      ¬ (l.num_rows = r.num_rows ∧ l.num_cols = r.num_cols)) ∧
    (matrix_sub.mk l r = none ↔
      ¬ (l.num_rows = r.num_rows ∧ l.num_cols = r.num_cols)) ∧
    (matrix_prod.mk l r = none ↔ l.num_cols ≠ r.num_rows) ∧
    (∀ e, matrix_sum.mk l r = some e →
      e.num_rows = l.num_rows ∧ e.num_cols = l.num_cols ∧
      e.num_rows = r.num_rows ∧ e.num_cols = r.num_cols) ∧
    (∀ e, matrix_sub.mk l r = some e →
      e.num_rows = l.num_rows ∧ e.num_cols = l.num_cols ∧
      e.num_rows = r.num_rows ∧ e.num_cols = r.num_cols) ∧
    (∀ e, matrix_prod.mk l r = some e →
      e.num_rows = l.num_rows ∧ e.num_cols = r.num_cols) := by
  refine ⟨?_, ?_, ?_, ?_, ?_, ?_⟩
  · rw [matrix_sum.mk]
    split
    · simp_all
    · simp_all
  · rw [matrix_sub.mk]
    split
    · simp_all
    · simp_all
  · rw [matrix_prod.mk]
    split
    · simp_all
    · simp_all
  · intro e he
    rw [matrix_sum.mk] at he
    split at he
    · cases he
      simp_all [mexpr.num_rows, mexpr.num_cols]
    · exact absurd he (by simp)
  · intro e he
    rw [matrix_sub.mk] at he
    split at he
    · cases he
      simp_all [mexpr.num_rows, mexpr.num_cols]
    · exact absurd he (by simp)
  · intro e he
    rw [matrix_prod.mk] at he
    split at he
    · cases he
      simp_all [mexpr.num_rows, mexpr.num_cols]
    · exact absurd he (by simp)

/-- C3 witness: the specification's instances — a Sum of a 2×3 and a 3×2
operand fails, a product of a 2×3 and a 4×2 operand fails, and compatible
operands construct nodes with the stated shapes. -/
theorem C3_construction_checks_witness :
    matrix_sum.mk (.dense ⟨2, 3, [0, 0, 0, 0, 0, 0]⟩)
      (.dense ⟨3, 2, [0, 0, 0, 0, 0, 0]⟩) = none ∧
    matrix_prod.mk (.dense ⟨2, 3, [0, 0, 0, 0, 0, 0]⟩)
      (.dense ⟨4, 2, [0, 0, 0, 0, 0, 0, 0, 0]⟩) = none ∧
    ((mexpr.prod (.dense ⟨2, 3, [0, 0, 0, 0, 0, 0]⟩)
      (.dense ⟨3, 2, [0, 0, 0, 0, 0, 0]⟩)).num_rows = 2 ∧
     (mexpr.prod (.dense ⟨2, 3, [0, 0, 0, 0, 0, 0]⟩)
      (.dense ⟨3, 2, [0, 0, 0, 0, 0, 0]⟩)).num_cols = 2) := by
  refine ⟨?_, ?_, ?_⟩
  · exact (C3_construction_checks _ _).1.mpr (by decide)
  · exact (C3_construction_checks _ _).2.2.1.mpr (by decide)
  · exact (C3_construction_checks (.dense ⟨2, 3, [0, 0, 0, 0, 0, 0]⟩)
      (.dense ⟨3, 2, [0, 0, 0, 0, 0, 0]⟩)).2.2.2.2.2
      (.prod (.dense ⟨2, 3, [0, 0, 0, 0, 0, 0]⟩)
        (.dense ⟨3, 2, [0, 0, 0, 0, 0, 0]⟩)) rfl

/-- C4: a counterexample showing that out-of-range coordinates are NOT all
detected at lookup time — the asserts in `matrix::at` use `<=` where the
contract needs `<`. On the 2×2 store {{1,2},{3,4}}, the out-of-range
lookup `at(0, 2)` passes both asserts and silently returns 3, the element
stored at (1,0). -/
theorem C4_out_of_range_returns_value :
    (⟨2, 2, [1, 2, 3, 4]⟩ : matrix).num_cols = 2 ∧
    (⟨2, 2, [1, 2, 3, 4]⟩ : matrix).at 0 2 = some 3 ∧
    (⟨2, 2, [1, 2, 3, 4]⟩ : matrix).at 1 0 = some 3 := by
  decide

/-- C5: `matrix::max` fails exactly on an empty store (the seeding read
`matrix_[0]` has no value to produce), and on every non-empty store it
returns a stored element that is greatest under the integer ordering. -/
theorem C5_max_spec (m : matrix) :
    (m.max = none ↔ m.data = []) ∧
    (m.data ≠ [] →
      ∃ v, m.max = some v ∧ v ∈ m.data ∧ ∀ x ∈ m.data, x ≤ v) := by
  rcases hm : m.data with - | ⟨x, xs⟩
  · constructor
    · rw [matrix.max, hm]
      simp
    · intro h
      exact absurd rfl h
  · constructor
    · rw [matrix.max, hm]
      simp
    · intro h0
      refine ⟨(x :: xs).foldl (fun max_val cur_val =>
          if max_val > cur_val then max_val else cur_val) x, ?_, ?_, ?_⟩
      · rw [matrix.max, hm]
      · rcases max_foldl_mem (x :: xs) x with h | h
        · rw [h]
          exact List.mem_cons_self x xs
        · exact h
      · exact (max_foldl_bounds (x :: xs) x).2

/-- C5 witness: the non-empty store holding 3 and 7 has maximum 7, and the
empty store's `max()` fails. -/
theorem C5_max_spec_witness :
    (⟨0, 0, []⟩ : matrix).max = none ∧
    ∃ v, (⟨1, 2, [3, 7]⟩ : matrix).max = some v ∧ v ∈ [(3 : Int), 7] ∧
      ∀ x ∈ [(3 : Int), 7], x ≤ v := by
  exact ⟨(C5_max_spec ⟨0, 0, []⟩).1.mpr rfl,
    (C5_max_spec ⟨1, 2, [3, 7]⟩).2 (by decide)⟩

/-- C6: for every scalar s and dense integer matrix A, both scalar product
nodes `s*A` and `A*s` carry A's shape, and materializing either yields
`s * A(i,j)` at every coordinate — the two specializations compute the
same value (both multiply the scalar on the left, and integer
multiplication is commutative regardless). -/
theorem C6_scalar_prod (s : Int) (A : matrix) (hA : A.wf) (i j : Nat)
    (hi : i < A.num_rows) (hj : j < A.num_cols) :
    (opMulScalarL s (.dense A)).num_rows = A.num_rows ∧
    (opMulScalarL s (.dense A)).num_cols = A.num_cols ∧
    (opMulScalarR (.dense A) s).num_rows = A.num_rows ∧
    (opMulScalarR (.dense A) s).num_cols = A.num_cols ∧
    (∃ C, materialize (opMulScalarL s (.dense A)) = some C ∧
      C.num_rows = A.num_rows ∧ C.num_cols = A.num_cols ∧
      C.entry i j = s * A.entry i j) ∧
    (∃ C, materialize (opMulScalarR (.dense A) s) = some C ∧
      C.num_rows = A.num_rows ∧ C.num_cols = A.num_cols ∧
      C.entry i j = s * A.entry i j) := by
  have hAat : ∀ i', i' < A.num_rows → ∀ j', j' < A.num_cols →
      (mexpr.dense A).at i' j' = some (A.entry i' j') :=
    fun i' hi' j' hj' => A.at_eq_entry i' j' hA hi' hj'
  refine ⟨rfl, rfl, rfl, rfl, ?_, ?_⟩
  · obtain ⟨C, h1, h2, h3, _, h5⟩ :=
      materialize_entry (opMulScalarL s (.dense A))
        (fun i j => s * A.entry i j)
        (fun i' hi' j' hj' => scalarL_at_eq (hAat i' hi' j' hj')) i j hi hj
    exact ⟨C, h1, h2, h3, h5⟩
  · obtain ⟨C, h1, h2, h3, _, h5⟩ :=
      materialize_entry (opMulScalarR (.dense A) s)
        (fun i j => s * A.entry i j)
        (fun i' hi' j' hj' => scalarR_at_eq (hAat i' hi' j' hj')) i j hi hj
    exact ⟨C, h1, h2, h3, h5⟩

/-- C6 witness: the specification's scenario `A*10` for A = {{1,2},{3,4}}
holds 30 at (1,0), and `10*A` holds the same value there. -/
theorem C6_scalar_prod_witness :
    (∃ C, materialize (opMulScalarR (.dense ⟨2, 2, [1, 2, 3, 4]⟩) 10) = some C ∧
      C.entry 1 0 = 30) ∧
    (∃ C, materialize (opMulScalarL 10 (.dense ⟨2, 2, [1, 2, 3, 4]⟩)) = some C ∧
      C.entry 1 0 = 30) := by
  obtain ⟨-, -, -, -, ⟨C1, hC1, -, -, h1⟩, C2, hC2, -, -, h2⟩ :=
    C6_scalar_prod 10 ⟨2, 2, [1, 2, 3, 4]⟩ (by decide) 1 0 (by decide) (by decide)
  exact ⟨⟨C2, hC2, by rw [h2]; decide⟩, ⟨C1, hC1, by rw [h1]; decide⟩⟩

/-- C7 counterexample: the dimensions-plus-buffer constructor performs no
validation at all — constructing a 2×2 store from a 3-element buffer
succeeds and produces a store whose buffer length 3 differs from
`rowCount() * colCount() = 4`, violating the invariant the claim says is
protected. -/
theorem C7_no_length_check :
    matrix.ofDims 2 2 [1, 2, 3] = ⟨2, 2, [1, 2, 3]⟩ ∧
    (matrix.ofDims 2 2 [1, 2, 3]).data.length = 3 ∧
    (matrix.ofDims 2 2 [1, 2, 3]).num_rows *
      (matrix.ofDims 2 2 [1, 2, 3]).num_cols = 4 ∧
    ¬ (matrix.ofDims 2 2 [1, 2, 3]).wf := by
  decide

/-- C7 (amended): the explicit-dimensions constructor stores shape and
buffer exactly as given with no validation, so the buffer-length invariant
holds for the constructed store precisely when the caller supplies a
matching buffer; stores produced by materialization, in contrast, always
satisfy the invariant. -/
theorem C7_ofDims_unvalidated (rows columns : Nat) (data : List Int) :
    (matrix.ofDims rows columns data).num_rows = rows ∧
    (matrix.ofDims rows columns data).num_cols = columns ∧
    (matrix.ofDims rows columns data).data = data ∧
    ((matrix.ofDims rows columns data).wf ↔ data.length = rows * columns) ∧
    (∀ e C, materialize e = some C → C.wf) := by
  exact ⟨rfl, rfl, rfl, Iff.rfl, materialize_wf⟩

/-- C7 witness: a matching buffer yields a well-formed store, and a
concrete materialization yields a well-formed store. -/
theorem C7_ofDims_unvalidated_witness :
    (matrix.ofDims 2 2 [1, 2, 3, 4]).wf ∧ (⟨1, 1, [5]⟩ : matrix).wf := by
  exact ⟨(C7_ofDims_unvalidated 2 2 [1, 2, 3, 4]).2.2.2.1.mpr (by decide),
    (C7_ofDims_unvalidated 0 0 []).2.2.2.2 (.dense ⟨1, 1, [5]⟩) ⟨1, 1, [5]⟩ rfl⟩

/-- C8: the default constructor `matrix<T>() = default` leaves the
inherited `size_t` shape members without initializers, so a
default-initialized store does not have guaranteed shape 0×0: with
indeterminate member contents 7 and 3 the shape reads back as 7×3, not
0×0, while the element buffer is empty. -/
theorem C8_default_shape_indeterminate :
    (matrix.defaultCtor 7 3).num_rows = 7 ∧
    (matrix.defaultCtor 7 3).num_cols = 3 ∧
    (matrix.defaultCtor 7 3).num_rows ≠ 0 ∧
    (matrix.defaultCtor 7 3).data = [] := by
  decide

/-- C9: the generic textual rendering prints in row-major order, one space
after each value and one newline after each row; an instance with zero
rows renders as the empty string, a 1×1 store holding 5 renders as exactly
the three characters digit-space-newline, and a 2×2 store demonstrates the
row-major, space-separated, newline-per-row layout. -/
theorem C9_render_spec :
    (∀ e : mexpr, e.num_rows = 0 → render e = some "") ∧
    render (.dense ⟨1, 1, [5]⟩) = some (String.mk ['5', ' ', '\n']) ∧
    render (.dense ⟨2, 2, [1, 2, 3, 4]⟩)
      = some (String.mk ['1', ' ', '2', ' ', '\n', '3', ' ', '4', ' ', '\n']) := by
  refine ⟨?_, by decide, by decide⟩
  intro e he
  rw [render, if_pos he]

/-- C9 witness: a store with zero rows renders as the empty string. -/
theorem C9_render_spec_witness :
    render (.dense ⟨0, 7, []⟩) = some "" :=
  C9_render_spec.1 (.dense ⟨0, 7, []⟩) rfl

/-- C10: each compound-assignment operator constructs and returns exactly
the composite node the corresponding plain operator constructs, referencing
both operands unchanged — no in-place update of the left operand exists in
the model, because `operator+=`, `operator-=` and `operator*=` take both
operands by const reference and only invoke a node constructor. -/
theorem C10_compound_assign (l r : mexpr) (s : Int) :
    opAddAssign l r = opAdd l r ∧
    opSubAssign l r = opSub l r ∧
    opMulAssign l r = opMul l r ∧
    opMulAssignScalarL s l = opMulScalarL s l ∧
    opMulAssignScalarR l s = opMulScalarR l s ∧
    (∀ e, opAddAssign l r = some e → e = mexpr.sum l r) ∧
    (∀ e, opSubAssign l r = some e → e = mexpr.sub l r) ∧
    (∀ e, opMulAssign l r = some e → e = mexpr.prod l r) := by
  refine ⟨rfl, rfl, rfl, rfl, rfl, ?_, ?_, ?_⟩
  · intro e he
    rw [opAddAssign, matrix_sum.mk] at he
    split at he
    · exact (Option.some.inj he).symm
    · exact absurd he (by simp)
  · intro e he
    rw [opSubAssign, matrix_sub.mk] at he
    split at he
    · exact (Option.some.inj he).symm
    · exact absurd he (by simp)
  · intro e he
    rw [opMulAssign, matrix_prod.mk] at he
    split at he
    · exact (Option.some.inj he).symm
    · exact absurd he (by simp)

/-- C10 witness: on concrete 1×1 operands, `+=` returns the very node `+`
returns, and the node a successful `+=` yields is the sum node over the
two untouched operands. -/
theorem C10_compound_assign_witness :
    opAddAssign (.dense ⟨1, 1, [2]⟩) (.dense ⟨1, 1, [3]⟩)
      = opAdd (.dense ⟨1, 1, [2]⟩) (.dense ⟨1, 1, [3]⟩) ∧
    mexpr.sum (.dense ⟨1, 1, [2]⟩) (.dense ⟨1, 1, [3]⟩)
      = mexpr.sum (.dense ⟨1, 1, [2]⟩) (.dense ⟨1, 1, [3]⟩) := by
  exact ⟨(C10_compound_assign (.dense ⟨1, 1, [2]⟩) (.dense ⟨1, 1, [3]⟩) 0).1,
    (C10_compound_assign (.dense ⟨1, 1, [2]⟩) (.dense ⟨1, 1, [3]⟩) 0).2.2.2.2.2.1
      (.sum (.dense ⟨1, 1, [2]⟩) (.dense ⟨1, 1, [3]⟩)) rfl⟩
